import Mathlib

/-
Verification of `microhhpy/openbc/input_from_era5.py`.

The driver `create_era5_input`, the per-task workers `parse_scalar` and
`parse_momentum`, the staggered-factor selection `get_interpolation_factors`
and the binary writer `save_3d_field` are embedded from the source.  The
numerical kernels imported from `microhhpy.interpolate` and
`openbc.global_help_functions` (interpolation, Gaussian filter, surface
blending, divergence correction, w reconstruction, divergence check) are not
part of the repository snapshot; where a claim depends only on how the driver
invokes them they are kept abstract (fields of `ExtOps`), and where a claim is
about their own behaviour they are modelled from the spec (see the doc
comments starting with `Modelled from the spec`).

Observable effects (file writes, LBC container writes, log messages) are
recorded as explicit event lists, so that claims about what gets written, in
which order, and for which timesteps become statements about those lists.
-/

set_option maxHeartbeats 1000000

namespace Microhhpy

/-- Interpolation factor tables at the three staggered horizontal locations,
as built by `setup_interpolations` (a dict with keys u, v, s in the source).
The table type `P` is abstract: `Rect_to_curv_interpolation_factors` is an
external collaborator. -/
structure IpFactors (P : Type) where
  u : P
  v : P
  s : P
  deriving DecidableEq

/-- The external kernels imported by `input_from_era5.py`, kept abstract.
`interpolate_rect_to_curv` takes the source field, the factor table and the
target level heights (the remaining grid arguments are fixed per run and
elided).  `correct_div_uv` mutates u and v in place in the source, so it is
modelled as returning the corrected pair; `calc_w_from_uv` returns the
recomputed w; `check_divergence` returns (div_max, i, j, k). -/
structure ExtOps (S F P : Type) where
  interpolate_rect_to_curv : S → P → List ℚ → F
  gaussian_filter_wrapper : F → ℤ → F
  blend_w_to_zero_at_sfc : F → List ℚ → ℚ → F
  correct_div_uv : F → F → F → F × F
  calc_w_from_uv : F → F → F → F
  check_divergence : F → F → F → ℚ × ℕ × ℕ × ℕ

/-- Observable events of one pipeline run.  `saveInit name ktot` records a
`save_3d_field` call writing `name` with `ktot` vertical levels (the level
count of the array slice passed in); `lbcWrite name side t` records one
assignment into the LBC container. -/
inductive Step (P : Type) where
  | alloc
  | interp (name : String) (ip : P) (zloc : List ℚ)
  | filter (name : String) (sigma_n : ℤ)
  | blend (zmax : ℚ)
  | correctDiv
  | calcW
  | checkDiv
  | report (div_max : ℚ)
  | saveInit (name : String) (ktot : ℕ)
  | lbcWrite (name : String) (side : String) (t : ℕ)
  deriving DecidableEq

/-- The variable name an event is about (empty for events not tied to one
variable). -/
def Step.varName {P : Type} : Step P → String
  | .interp n _ _ => n
  | .filter n _ => n
  | .saveInit n _ => n
  | .lbcWrite n _ _ => n
  | _ => ""

/-- `get_interpolation_factors` (input_from_era5.py, lines 85-108): select the
factor table at the staggered location of a field name; anything that is not
u or v uses the scalar table. -/
def get_interpolation_factors {P : Type} (factors : IpFactors P) (name : String) : P :=
  if name = "u" then factors.u
  else if name = "v" then factors.v
  else factors.s

/-- Filter width conversion in `create_era5_input` (line 446):
`sigma_n = int(np.ceil(sigma_h / proj_pad.dx))`. -/
def sigma_n_of (sigma_h dx : ℚ) : ℤ := ⌈sigma_h / dx⌉

/-- Python slice `xs[a:-a]` along one axis of a list.  For `a = 0` the slice
`xs[0:-0]` is `xs[0:0]`, i.e. empty. -/
def sliceTrim {α : Type} (a : ℕ) (xs : List α) : List α :=
  if a = 0 then [] else (xs.drop a).take (xs.length - 2 * a)

/-- One binary file written by `save_3d_field`. -/
structure SavedField where
  fname : String
  data : List ℚ
  deriving DecidableEq

/-- `save_3d_field` (input_from_era5.py, lines 111-125): write
`fld[:, n_pad:-n_pad, n_pad:-n_pad]` (all levels, halo stripped on the four
horizontal sides) with `tofile`, which flattens in C order (level-major, then
row-major).  The field is a list of horizontal planes (level, row, column). -/
def save_3d_field (fld : List (List (List ℚ))) (name name_suffix : String)
    (n_pad : ℕ) (output_dir : String) : SavedField :=
  { fname :=
      if name_suffix = "" then output_dir ++ "/" ++ name ++ ".0000000"
      else output_dir ++ "/" ++ name ++ "_" ++ name_suffix ++ ".0000000",
    data :=
      ((fld.map (fun plane => (sliceTrim n_pad plane).map (fun row => sliceTrim n_pad row))).flatten).flatten }

/-- `parse_scalar` (input_from_era5.py, lines 128-207): allocate a buffer,
interpolate, filter if `sigma_n > 0`, write the initial snapshot when `t = 0`
(the buffer has `z_les.length` levels), and write the four boundary sides into
the LBC container.  Returns the processed field and the event list. -/
def parse_scalar {S F P : Type} (ops : ExtOps S F P) (name : String) (t : ℕ)
    (fld_era : S) (z_les : List ℚ) (ip_fac : P) (sigma_n : ℤ) :
    F × List (Step P) :=
  let fld0 := ops.interpolate_rect_to_curv fld_era ip_fac z_les
  let fld1 := if sigma_n > 0 then ops.gaussian_filter_wrapper fld0 sigma_n else fld0
  let ev0 : List (Step P) := [Step.alloc, Step.interp name ip_fac z_les]
  let ev1 := ev0 ++ (if sigma_n > 0 then [Step.filter name sigma_n] else [])
  let ev2 := ev1 ++ (if t = 0 then [Step.saveInit name z_les.length] else [])
  let ev3 := ev2 ++
    ((["west", "east", "south", "north"] : List String).map
      (fun loc => Step.lbcWrite name loc t))
  (fld1, ev3)

/-- `parse_momentum` (input_from_era5.py, lines 210-408): allocate buffers,
interpolate u/v at their staggered factor tables onto full levels and w at the
scalar table onto half levels, filter the three if `sigma_n > 0`, blend w to
zero at the surface with `zmax = 500`, correct the horizontal divergence of
u and v, recompute w, check and report the residual divergence, write the
t = 0 snapshots (u and v with all `z.length` levels, w as `w[:-1]`, dropping
the top half level), and write the boundary sides of u, v, w into the LBC
container.  Returns the final (u, v, w) and the event list. -/
def parse_momentum {S F P : Type} (ops : ExtOps S F P) (t : ℕ)
    (u_era v_era w_era : S) (z zh : List ℚ)
    (ip_u ip_v ip_s : P) (sigma_n : ℤ) :
    (F × F × F) × List (Step P) :=
  let u0 := ops.interpolate_rect_to_curv u_era ip_u z
  let v0 := ops.interpolate_rect_to_curv v_era ip_v z
  let w0 := ops.interpolate_rect_to_curv w_era ip_s zh
  let u1 := if sigma_n > 0 then ops.gaussian_filter_wrapper u0 sigma_n else u0
  let v1 := if sigma_n > 0 then ops.gaussian_filter_wrapper v0 sigma_n else v0
  let w1 := if sigma_n > 0 then ops.gaussian_filter_wrapper w0 sigma_n else w0
  let w2 := ops.blend_w_to_zero_at_sfc w1 zh 500
  let uv := ops.correct_div_uv u1 v1 w2
  let w3 := ops.calc_w_from_uv w2 uv.1 uv.2
  let chk := ops.check_divergence uv.1 uv.2 w3
  let ev0 : List (Step P) := [Step.alloc,
    Step.interp "u" ip_u z, Step.interp "v" ip_v z, Step.interp "w" ip_s zh]
  let ev1 := ev0 ++
    (if sigma_n > 0 then
      [Step.filter "u" sigma_n, Step.filter "v" sigma_n, Step.filter "w" sigma_n]
     else [])
  let ev2 := ev1 ++
    [Step.blend 500, Step.correctDiv, Step.calcW, Step.checkDiv, Step.report chk.1]
  let ev3 := ev2 ++
    (if t = 0 then
      [Step.saveInit "u" z.length, Step.saveInit "v" z.length,
       Step.saveInit "w" (zh.length - 1)]
     else [])
  let ev4 := ev3 ++
    ((["west", "east", "south", "north"] : List String).flatMap
      (fun loc => [Step.lbcWrite "u" loc t, Step.lbcWrite "v" loc t,
                   Step.lbcWrite "w" loc t]))
  ((uv.1, uv.2, w3), ev4)

/-- Result of a `create_era5_input` run: the log messages issued at warning
and at error/critical level, and the ordered write events.  The live driver
has no error or abort path; `errors` records that no configuration error is
ever raised on the momentum-missing branch. -/
structure DriverResult (P : Type) where
  warnings : List String
  errors : List String
  events : List (Step P)
  deriving DecidableEq

/-- Scalar section of `create_era5_input` (lines 472-500): for every entry of
`fields_era` whose name is not u, v or w, run `parse_scalar` for every
timestep, always with the scalar-location factor table.  The thread pool maps
over the argument list in construction order; the collected events are its
concatenation. -/
def scalar_events {S F P : Type} (ops : ExtOps S F P)
    (fields_era : List (String × S)) (nt : ℕ)
    (z_les : List ℚ) (ip_facs : IpFactors P) (sigma_n : ℤ) : List (Step P) :=
  fields_era.flatMap (fun nf =>
    if nf.1 = "u" ∨ nf.1 = "v" ∨ nf.1 = "w" then []
    else (List.range nt).flatMap (fun t =>
      (parse_scalar ops nf.1 t nf.2 z_les
        (get_interpolation_factors ip_facs "s") sigma_n).2))

/-- `create_era5_input` (input_from_era5.py, lines 411-552): convert the
filter length to grid cells, process all scalars, then — if any of u, v, w is
absent from the input field set — log a warning and skip momentum entirely,
otherwise run `parse_momentum` for every timestep with the factor tables
selected by `get_interpolation_factors`.  The vertical grid `z`, `zh` stands
for `vgrid.z`, `vgrid.zh` of the external `Vertical_grid_2nd`. -/
def create_era5_input {S F P : Type} [Inhabited S] (ops : ExtOps S F P)
    (fields_era : List (String × S)) (nt : ℕ)
    (z zh : List ℚ) (ip_facs : IpFactors P)
    (sigma_h dx : ℚ) : DriverResult P :=
  let sigma_n := sigma_n_of sigma_h dx
  let sEvents := scalar_events ops fields_era nt z ip_facs sigma_n
  let keys := fields_era.map Prod.fst
  if (["u", "v", "w"] : List String).any (fun f => !(keys.contains f)) then
    { warnings := ["One or more momentum fields missing! Skipping momentum..."],
      errors := [],
      events := sEvents }
  else
    let ip_u := get_interpolation_factors ip_facs "u"
    let ip_v := get_interpolation_factors ip_facs "v"
    let ip_s := get_interpolation_factors ip_facs "s"
    let u_era := (fields_era.lookup "u").getD default
    let v_era := (fields_era.lookup "v").getD default
    let w_era := (fields_era.lookup "w").getD default
    let mEvents := (List.range nt).flatMap (fun t =>
      (parse_momentum ops t u_era v_era w_era z zh ip_u ip_v ip_s sigma_n).2)
    { warnings := [], errors := [], events := sEvents ++ mEvents }

/-- Modelled from the spec: `blend_w_to_zero_at_sfc` (section 4.4 of the spec;
the function body lives in `openbc.global_help_functions`, outside this
snapshot).  For each column (the model works column-wise, columns are
independent) every half level with height at or below `zmax` is scaled by the
piecewise-linear ramp that is 0 at the surface and 1 at the blend height;
levels above `zmax` are unmodified. -/
def blend_w_to_zero_at_sfc (w : ℕ → ℚ) (zh : ℕ → ℚ) (zmax : ℚ) : ℕ → ℚ :=
  fun k => if zh k ≤ zmax then zh k / zmax * w k else w k

/-- Discrete horizontal divergence of (u, v) at full level k on the C-grid
stencil, used by the w reconstruction and the diagnostic (fields are indexed
(k, j, i) as in the source arrays). -/
def div_h (u v : ℕ → ℕ → ℕ → ℚ) (dxi dyi : ℚ) (k j i : ℕ) : ℚ :=
  (u k j (i + 1) - u k j i) * dxi + (v k (j + 1) i - v k j i) * dyi

/-- Modelled from the spec: `calc_w_from_uv` (section 4.6; the function body
lives in `openbc.global_help_functions`, outside this snapshot).  Starting
from w = 0 at the lowest half level, each next half level solves the
density-weighted continuity equation
`rhoh[k+1]*w[k+1] = rhoh[k]*w[k] - rho[k]*dz[k]*div_h[k]`. -/
def calc_w_from_uv (u v : ℕ → ℕ → ℕ → ℚ) (rho rhoh dz : ℕ → ℚ)
    (dxi dyi : ℚ) : ℕ → ℕ → ℕ → ℚ
  | 0, _, _ => 0
  | k + 1, j, i =>
      (rhoh k * calc_w_from_uv u v rho rhoh dz dxi dyi k j i
        - rho k * dz k * div_h u v dxi dyi k j i) / rhoh (k + 1)

/-- Modelled from the spec: the local density-weighted continuity residual at
one grid point, as scanned by `check_divergence` (section 4.7). -/
def div_res (u v w : ℕ → ℕ → ℕ → ℚ) (rho rhoh dzi : ℕ → ℚ)
    (dxi dyi : ℚ) (k j i : ℕ) : ℚ :=
  rho k * div_h u v dxi dyi k j i
    + (rhoh (k + 1) * w (k + 1) j i - rhoh k * w k j i) * dzi k

/-- Modelled from the spec: `check_divergence` (section 4.7; the function body
lives in `openbc.global_help_functions`, outside this snapshot).  Maximum of
the absolute continuity residual over the interior
`istart ≤ i < iend`, `jstart ≤ j < jend`, `0 ≤ k < ktot` (the grid-point
location of the maximum, also returned by the source, is elided). -/
def check_divergence (u v w : ℕ → ℕ → ℕ → ℚ) (rho rhoh dzi : ℕ → ℚ)
    (dxi dyi : ℚ) (istart iend jstart jend ktot : ℕ) : ℚ :=
  ((List.range ktot).flatMap (fun k =>
    (List.range (jend - jstart)).flatMap (fun j =>
      (List.range (iend - istart)).map (fun i =>
        |div_res u v w rho rhoh dzi dxi dyi k (jstart + j) (istart + i)|)))).foldl max 0

/-- Trivial instantiation of the external kernels, used to evaluate the
driver model on concrete inputs. -/
def unitOps : ExtOps Unit Unit Unit :=
  { interpolate_rect_to_curv := fun _ _ _ => (),
    gaussian_filter_wrapper := fun _ _ => (),
    blend_w_to_zero_at_sfc := fun _ _ _ => (),
    correct_div_uv := fun u v _ => (u, v),
    calc_w_from_uv := fun w _ _ => w,
    check_divergence := fun _ _ _ => (0, 0, 0, 0) }

/-- Claim C4: the driver converts the Gaussian filter length scale into a
grid-cell radius as `sigma_n = ceil(sigma_h / dx)` with the padded
projection's grid spacing, and the filter is applied to an interpolated field
exactly when `sigma_n > 0`; otherwise the field passes through unfiltered. -/
theorem c4_sigma_conversion_and_filter_gate {S F P : Type} (ops : ExtOps S F P)
    (name : String) (t : ℕ) (fld_era : S) (z_les : List ℚ) (ip_fac : P)
    (sigma_h dx : ℚ) :
    sigma_n_of sigma_h dx = ⌈sigma_h / dx⌉ ∧
    (parse_scalar ops name t fld_era z_les ip_fac (sigma_n_of sigma_h dx)).1 =
      (if sigma_n_of sigma_h dx > 0 then
        ops.gaussian_filter_wrapper
          (ops.interpolate_rect_to_curv fld_era ip_fac z_les) (sigma_n_of sigma_h dx)
       else ops.interpolate_rect_to_curv fld_era ip_fac z_les) :=
  ⟨rfl, rfl⟩

/-- Claim C6: for every (scalar, timestep) unit of work, `parse_scalar`
writes the initial snapshot exactly when `t = 0`, and writes the four
boundary-side slices into the LBC container for every timestep. -/
theorem c6_scalar_snapshot_iff_t0_and_lbc_always {S F P : Type} (ops : ExtOps S F P)
    (name : String) (t : ℕ) (fld_era : S) (z_les : List ℚ) (ip_fac : P)
    (sigma_n : ℤ) :
    ((Step.saveInit name z_les.length ∈ (parse_scalar ops name t fld_era z_les ip_fac sigma_n).2)
      ↔ t = 0) ∧
    Step.lbcWrite name "west" t ∈ (parse_scalar ops name t fld_era z_les ip_fac sigma_n).2 ∧
    Step.lbcWrite name "east" t ∈ (parse_scalar ops name t fld_era z_les ip_fac sigma_n).2 ∧
    Step.lbcWrite name "south" t ∈ (parse_scalar ops name t fld_era z_les ip_fac sigma_n).2 ∧
    Step.lbcWrite name "north" t ∈ (parse_scalar ops name t fld_era z_les ip_fac sigma_n).2 := by
  by_cases ht : t = 0 <;> by_cases hs : sigma_n > 0 <;>
    simp [parse_scalar, ht, hs]

/-- Claim C5: the momentum pipeline performs, in order: allocation;
interpolation of u with the u-location factors and v with the v-location
factors onto full levels and of w with the scalar-location factors onto
half-level heights; filtering of all three if requested; surface blending of
w; horizontal divergence correction; w reconstruction; the divergence
diagnostic with its report; the t = 0 interior snapshots; and the LBC
boundary-side writes of u, v, w. -/
theorem c5_momentum_pipeline_order {S F P : Type} (ops : ExtOps S F P) (t : ℕ)
    (u_era v_era w_era : S) (z zh : List ℚ) (facs : IpFactors P) (sigma_n : ℤ) :
    let r := parse_momentum ops t u_era v_era w_era z zh
      (get_interpolation_factors facs "u") (get_interpolation_factors facs "v")
      (get_interpolation_factors facs "s") sigma_n
    r.2 =
      [Step.alloc, Step.interp "u" facs.u z, Step.interp "v" facs.v z,
       Step.interp "w" facs.s zh]
      ++ (if sigma_n > 0 then
            [Step.filter "u" sigma_n, Step.filter "v" sigma_n, Step.filter "w" sigma_n]
          else [])
      ++ [Step.blend 500, Step.correctDiv, Step.calcW, Step.checkDiv,
          Step.report (ops.check_divergence r.1.1 r.1.2.1 r.1.2.2).1]
      ++ (if t = 0 then
            [Step.saveInit "u" z.length, Step.saveInit "v" z.length,
             Step.saveInit "w" (zh.length - 1)]
          else [])
      ++ [Step.lbcWrite "u" "west" t, Step.lbcWrite "v" "west" t, Step.lbcWrite "w" "west" t,
          Step.lbcWrite "u" "east" t, Step.lbcWrite "v" "east" t, Step.lbcWrite "w" "east" t,
          Step.lbcWrite "u" "south" t, Step.lbcWrite "v" "south" t, Step.lbcWrite "w" "south" t,
          Step.lbcWrite "u" "north" t, Step.lbcWrite "v" "north" t, Step.lbcWrite "w" "north" t] := by
  simp [parse_momentum, get_interpolation_factors, List.flatMap]

/-- Claim C9: at the reference time the momentum pipeline saves the w
snapshot as `w[:-1]` (one fewer level than the half-level buffer), so the
written w file has the full-level count, equal to the u and v snapshots,
which keep all their levels. -/
theorem c9_w_snapshot_drops_top_half_level {S F P : Type} (ops : ExtOps S F P)
    (u_era v_era w_era : S) (z zh : List ℚ) (ip_u ip_v ip_s : P) (sigma_n : ℤ)
    (hz : zh.length = z.length + 1) :
    Step.saveInit "u" z.length ∈
      (parse_momentum ops 0 u_era v_era w_era z zh ip_u ip_v ip_s sigma_n).2 ∧
    Step.saveInit "v" z.length ∈
      (parse_momentum ops 0 u_era v_era w_era z zh ip_u ip_v ip_s sigma_n).2 ∧
    Step.saveInit "w" (zh.length - 1) ∈
      (parse_momentum ops 0 u_era v_era w_era z zh ip_u ip_v ip_s sigma_n).2 ∧
    zh.length - 1 = z.length := by
  refine ⟨?_, ?_, ?_, by omega⟩ <;>
    by_cases hs : sigma_n > 0 <;> simp [parse_momentum, hs]

/-- Witness for C9 at a concrete input: one full level, two half levels. -/
theorem c9_w_snapshot_drops_top_half_level_witness :
    Step.saveInit "u" ([(50 : ℚ)] : List ℚ).length ∈
      (parse_momentum unitOps 0 () () () [(50 : ℚ)] [0, 100] () () () 0).2 ∧
    Step.saveInit "v" ([(50 : ℚ)] : List ℚ).length ∈
      (parse_momentum unitOps 0 () () () [(50 : ℚ)] [0, 100] () () () 0).2 ∧
    Step.saveInit "w" (([(0 : ℚ), 100] : List ℚ).length - 1) ∈
      (parse_momentum unitOps 0 () () () [(50 : ℚ)] [0, 100] () () () 0).2 ∧
    ([(0 : ℚ), 100] : List ℚ).length - 1 = ([(50 : ℚ)] : List ℚ).length :=
  c9_w_snapshot_drops_top_half_level unitOps () () () [(50 : ℚ)] [0, 100] () () () 0 (by decide)

/-- Claim C3: in the momentum pipeline w is blended to zero between the
surface and the blend height 500: the lowest half level (at the surface)
becomes exactly 0, each half level at or below 500 is scaled by the
piecewise-linear ramp `zh/500` (0 at the surface, 1 at the blend height), and
each half level above 500 is unmodified; the pipeline invokes the blend with
`zmax = 500`. -/
theorem c3_blend_w_to_zero {S F P : Type} (w zh : ℕ → ℚ) (h0 : zh 0 = 0)
    (ops : ExtOps S F P) (t : ℕ) (u_era v_era w_era : S)
    (z zhl : List ℚ) (ip_u ip_v ip_s : P) (sigma_n : ℤ) :
    blend_w_to_zero_at_sfc w zh 500 0 = 0 ∧
    (∀ k, zh k ≤ 500 → blend_w_to_zero_at_sfc w zh 500 k = zh k / 500 * w k) ∧
    (∀ k, 500 < zh k → blend_w_to_zero_at_sfc w zh 500 k = w k) ∧
    Step.blend 500 ∈
      (parse_momentum ops t u_era v_era w_era z zhl ip_u ip_v ip_s sigma_n).2 := by
  refine ⟨?_, ?_, ?_, ?_⟩
  · simp [blend_w_to_zero_at_sfc, h0]
  · intro k hk; simp [blend_w_to_zero_at_sfc, hk]
  · intro k hk; simp [blend_w_to_zero_at_sfc, not_le.mpr hk]
  · by_cases hs : sigma_n > 0 <;> by_cases ht : t = 0 <;> simp [parse_momentum, hs, ht]

/-- Witness for C3 at a concrete input: `zh k = 100 k`, `w = 7`. -/
theorem c3_blend_w_to_zero_witness :
    blend_w_to_zero_at_sfc (fun _ => 7) (fun k => 100 * (k : ℚ)) 500 0 = 0 ∧
    (∀ k : ℕ, 100 * (k : ℚ) ≤ 500 →
      blend_w_to_zero_at_sfc (fun _ => 7) (fun k => 100 * (k : ℚ)) 500 k
        = 100 * (k : ℚ) / 500 * 7) ∧
    (∀ k : ℕ, 500 < 100 * (k : ℚ) →
      blend_w_to_zero_at_sfc (fun _ => 7) (fun k => 100 * (k : ℚ)) 500 k = 7) ∧
    Step.blend 500 ∈ (parse_momentum unitOps 0 () () () [] [] () () () 0).2 :=
  c3_blend_w_to_zero (fun _ => 7) (fun k => 100 * (k : ℚ)) (by norm_num)
    unitOps 0 () () () [] [] () () () 0

/-- Every event of one `parse_scalar` run is about the scalar's own name (or
about no variable at all). -/
lemma parse_scalar_varName {S F P : Type} (ops : ExtOps S F P) (name : String)
    (t : ℕ) (fld_era : S) (z_les : List ℚ) (ip_fac : P) (sigma_n : ℤ) :
    ∀ s ∈ (parse_scalar ops name t fld_era z_les ip_fac sigma_n).2,
      Step.varName s = name ∨ Step.varName s = "" := by
  by_cases ht : t = 0 <;> by_cases hsig : sigma_n > 0 <;>
    simp [parse_scalar, ht, hsig, Step.varName]

/-- No event of the scalar section is about u, v or w: the loop skips those
names unconditionally. -/
lemma scalar_events_varName {S F P : Type} (ops : ExtOps S F P)
    (fields_era : List (String × S)) (nt : ℕ) (z_les : List ℚ)
    (ip_facs : IpFactors P) (sigma_n : ℤ) :
    ∀ s ∈ scalar_events ops fields_era nt z_les ip_facs sigma_n,
      Step.varName s ≠ "u" ∧ Step.varName s ≠ "v" ∧ Step.varName s ≠ "w" := by
  intro s hs
  simp only [scalar_events, List.mem_flatMap] at hs
  obtain ⟨nf, hnf, hs⟩ := hs
  by_cases hname : nf.1 = "u" ∨ nf.1 = "v" ∨ nf.1 = "w"
  · simp [hname] at hs
  · rw [if_neg hname] at hs
    obtain ⟨t, ht, hs⟩ := List.mem_flatMap.mp hs
    have hvar := parse_scalar_varName ops nf.1 t nf.2 z_les
      (get_interpolation_factors ip_facs "s") sigma_n s hs
    push_neg at hname
    rcases hvar with h | h <;> rw [h]
    · exact hname
    · refine ⟨?_, ?_, ?_⟩ <;> decide

/-- When a momentum component is missing, `create_era5_input` takes the
skip branch: warning, no error, scalar events only. -/
lemma create_era5_input_of_missing {S F P : Type} [Inhabited S] (ops : ExtOps S F P)
    (fields_era : List (String × S)) (nt : ℕ) (z zh : List ℚ)
    (ip_facs : IpFactors P) (sigma_h dx : ℚ)
    (hmiss : (["u", "v", "w"] : List String).any
      (fun f => !((fields_era.map Prod.fst).contains f)) = true) :
    create_era5_input ops fields_era nt z zh ip_facs sigma_h dx =
      { warnings := ["One or more momentum fields missing! Skipping momentum..."],
        errors := [],
        events := scalar_events ops fields_era nt z ip_facs (sigma_n_of sigma_h dx) } := by
  simp only [create_era5_input]
  rw [if_pos hmiss]

/-- The t = 0 run of `parse_scalar` contains the snapshot write. -/
lemma saveInit_mem_parse_scalar {S F P : Type} (ops : ExtOps S F P) (name : String)
    (fld_era : S) (z_les : List ℚ) (ip_fac : P) (sigma_n : ℤ) :
    Step.saveInit name z_les.length ∈
      (parse_scalar ops name 0 fld_era z_les ip_fac sigma_n).2 := by
  by_cases hsig : sigma_n > 0 <;> simp [parse_scalar, hsig]

/-- Every run of `parse_scalar` contains all four boundary-side writes. -/
lemma lbcWrite_mem_parse_scalar {S F P : Type} (ops : ExtOps S F P) (name : String)
    (t : ℕ) (fld_era : S) (z_les : List ℚ) (ip_fac : P) (sigma_n : ℤ) (loc : String)
    (hloc : loc = "west" ∨ loc = "east" ∨ loc = "south" ∨ loc = "north") :
    Step.lbcWrite name loc t ∈
      (parse_scalar ops name t fld_era z_les ip_fac sigma_n).2 := by
  by_cases hsig : sigma_n > 0 <;> by_cases ht : t = 0 <;>
    rcases hloc with rfl | rfl | rfl | rfl <;> simp [parse_scalar, hsig, ht]

/-- A scalar present in the field set gets its snapshot event in the scalar
section, provided there is at least one timestep. -/
lemma saveInit_mem_scalar_events {S F P : Type} (ops : ExtOps S F P)
    (fields_era : List (String × S)) (nt : ℕ) (z_les : List ℚ)
    (ip_facs : IpFactors P) (sigma_n : ℤ) (name : String) (fld : S)
    (hmem : (name, fld) ∈ fields_era)
    (hname : ¬(name = "u" ∨ name = "v" ∨ name = "w")) (hnt : 0 < nt) :
    Step.saveInit name z_les.length ∈
      scalar_events ops fields_era nt z_les ip_facs sigma_n := by
  simp only [scalar_events, List.mem_flatMap]
  refine ⟨(name, fld), hmem, ?_⟩
  rw [if_neg hname]
  exact List.mem_flatMap.mpr ⟨0, List.mem_range.mpr hnt,
    saveInit_mem_parse_scalar ops name fld z_les
      (get_interpolation_factors ip_facs "s") sigma_n⟩

/-- A scalar present in the field set gets all its LBC writes in the scalar
section, for every timestep. -/
lemma lbcWrite_mem_scalar_events {S F P : Type} (ops : ExtOps S F P)
    (fields_era : List (String × S)) (nt : ℕ) (z_les : List ℚ)
    (ip_facs : IpFactors P) (sigma_n : ℤ) (name : String) (fld : S)
    (hmem : (name, fld) ∈ fields_era)
    (hname : ¬(name = "u" ∨ name = "v" ∨ name = "w")) (t : ℕ) (ht : t < nt)
    (loc : String)
    (hloc : loc = "west" ∨ loc = "east" ∨ loc = "south" ∨ loc = "north") :
    Step.lbcWrite name loc t ∈
      scalar_events ops fields_era nt z_les ip_facs sigma_n := by
  simp only [scalar_events, List.mem_flatMap]
  refine ⟨(name, fld), hmem, ?_⟩
  rw [if_neg hname]
  exact List.mem_flatMap.mpr ⟨t, List.mem_range.mpr ht,
    lbcWrite_mem_parse_scalar ops name t fld z_les
      (get_interpolation_factors ip_facs "s") sigma_n loc hloc⟩

/-- Claim C1 counterexample: with w absent from the field set, the driver
raises no configuration error (only a warning) and completes normally,
producing scalar output (here a `qt` LBC write), so the run is not aborted as
the claim states. -/
theorem c1_missing_momentum_counterexample :
    (create_era5_input unitOps [("u", ()), ("v", ()), ("qt", ())] 1
        [(50 : ℚ)] [0, 100] ⟨(), (), ()⟩ 0 1).errors = [] ∧
    (create_era5_input unitOps [("u", ()), ("v", ()), ("qt", ())] 1
        [(50 : ℚ)] [0, 100] ⟨(), (), ()⟩ 0 1).warnings =
      ["One or more momentum fields missing! Skipping momentum..."] ∧
    Step.lbcWrite "qt" "west" 0 ∈
      (create_era5_input unitOps [("u", ()), ("v", ()), ("qt", ())] 1
        [(50 : ℚ)] [0, 100] ⟨(), (), ()⟩ 0 1).events := by
  rw [create_era5_input_of_missing unitOps [("u", ()), ("v", ()), ("qt", ())] 1
    [(50 : ℚ)] [0, 100] ⟨(), (), ()⟩ 0 1 (by decide)]
  refine ⟨rfl, rfl, ?_⟩
  exact lbcWrite_mem_scalar_events unitOps [("u", ()), ("v", ()), ("qt", ())] 1
    [(50 : ℚ)] ⟨(), (), ()⟩ (sigma_n_of 0 1) "qt" () (by simp) (by decide) 0
    (by decide) "west" (Or.inl rfl)

/-- Claim C1 amended: if a required momentum component is missing, the driver
logs a warning, raises no configuration error, and skips momentum entirely:
the run continues and its events are exactly the scalar-section events. -/
theorem c1_missing_momentum_warns_and_skips {S F P : Type} [Inhabited S]
    (ops : ExtOps S F P) (fields_era : List (String × S)) (nt : ℕ)
    (z zh : List ℚ) (ip_facs : IpFactors P) (sigma_h dx : ℚ)
    (hmiss : (["u", "v", "w"] : List String).any
      (fun f => !((fields_era.map Prod.fst).contains f)) = true) :
    (create_era5_input ops fields_era nt z zh ip_facs sigma_h dx).warnings =
      ["One or more momentum fields missing! Skipping momentum..."] ∧
    (create_era5_input ops fields_era nt z zh ip_facs sigma_h dx).errors = [] ∧
    (create_era5_input ops fields_era nt z zh ip_facs sigma_h dx).events =
      scalar_events ops fields_era nt z ip_facs (sigma_n_of sigma_h dx) := by
  rw [create_era5_input_of_missing ops fields_era nt z zh ip_facs sigma_h dx hmiss]
  exact ⟨rfl, rfl, rfl⟩

/-- Witness for the amended C1 at a concrete input (w missing). -/
theorem c1_missing_momentum_warns_and_skips_witness :
    (create_era5_input unitOps [("u", ()), ("qt", ())] 2
        [(50 : ℚ)] [0, 100] ⟨(), (), ()⟩ 0 1).warnings =
      ["One or more momentum fields missing! Skipping momentum..."] ∧
    (create_era5_input unitOps [("u", ()), ("qt", ())] 2
        [(50 : ℚ)] [0, 100] ⟨(), (), ()⟩ 0 1).errors = [] ∧
    (create_era5_input unitOps [("u", ()), ("qt", ())] 2
        [(50 : ℚ)] [0, 100] ⟨(), (), ()⟩ 0 1).events =
      scalar_events unitOps [("u", ()), ("qt", ())] 2 [(50 : ℚ)] ⟨(), (), ()⟩
        (sigma_n_of 0 1) :=
  c1_missing_momentum_warns_and_skips unitOps [("u", ()), ("qt", ())] 2
    [(50 : ℚ)] [0, 100] ⟨(), (), ()⟩ 0 1 (by decide)

/-- Claim C2: when at least one of u, v, w is absent, momentum processing is
skipped entirely (no event of the run is about u, v or w), while every
non-momentum field is fully processed: its snapshot is written (given at
least one timestep) and its four boundary-side LBC records are written for
every timestep. -/
theorem c2_momentum_skipped_scalars_complete {S F P : Type} [Inhabited S]
    (ops : ExtOps S F P) (fields_era : List (String × S)) (nt : ℕ)
    (z zh : List ℚ) (ip_facs : IpFactors P) (sigma_h dx : ℚ)
    (hmiss : (["u", "v", "w"] : List String).any
      (fun f => !((fields_era.map Prod.fst).contains f)) = true) :
    (∀ s ∈ (create_era5_input ops fields_era nt z zh ip_facs sigma_h dx).events,
        Step.varName s ≠ "u" ∧ Step.varName s ≠ "v" ∧ Step.varName s ≠ "w") ∧
    (∀ name fld, (name, fld) ∈ fields_era →
      ¬(name = "u" ∨ name = "v" ∨ name = "w") →
      (0 < nt → Step.saveInit name z.length ∈
        (create_era5_input ops fields_era nt z zh ip_facs sigma_h dx).events) ∧
      (∀ t, t < nt →
        Step.lbcWrite name "west" t ∈
          (create_era5_input ops fields_era nt z zh ip_facs sigma_h dx).events ∧
        Step.lbcWrite name "east" t ∈
          (create_era5_input ops fields_era nt z zh ip_facs sigma_h dx).events ∧
        Step.lbcWrite name "south" t ∈
          (create_era5_input ops fields_era nt z zh ip_facs sigma_h dx).events ∧
        Step.lbcWrite name "north" t ∈
          (create_era5_input ops fields_era nt z zh ip_facs sigma_h dx).events)) := by
  rw [create_era5_input_of_missing ops fields_era nt z zh ip_facs sigma_h dx hmiss]
  constructor
  · exact scalar_events_varName ops fields_era nt z ip_facs (sigma_n_of sigma_h dx)
  · intro name fld hmem hname
    refine ⟨fun hnt => saveInit_mem_scalar_events ops fields_era nt z ip_facs
      (sigma_n_of sigma_h dx) name fld hmem hname hnt, fun t ht => ?_⟩
    refine ⟨?_, ?_, ?_, ?_⟩ <;>
      exact lbcWrite_mem_scalar_events ops fields_era nt z ip_facs
        (sigma_n_of sigma_h dx) name fld hmem hname t ht _ (by simp)

/-- Witness for C2 at a concrete input (u and v missing, one scalar `qt`). -/
theorem c2_momentum_skipped_scalars_complete_witness :
    (∀ s ∈ (create_era5_input unitOps [("qt", ())] 1
        [(50 : ℚ)] [0, 100] ⟨(), (), ()⟩ 0 1).events,
        Step.varName s ≠ "u" ∧ Step.varName s ≠ "v" ∧ Step.varName s ≠ "w") ∧
    (∀ name fld, (name, fld) ∈ ([("qt", ())] : List (String × Unit)) →
      ¬(name = "u" ∨ name = "v" ∨ name = "w") →
      (0 < 1 → Step.saveInit name ([(50 : ℚ)] : List ℚ).length ∈
        (create_era5_input unitOps [("qt", ())] 1
          [(50 : ℚ)] [0, 100] ⟨(), (), ()⟩ 0 1).events) ∧
      (∀ t, t < 1 →
        Step.lbcWrite name "west" t ∈
          (create_era5_input unitOps [("qt", ())] 1
            [(50 : ℚ)] [0, 100] ⟨(), (), ()⟩ 0 1).events ∧
        Step.lbcWrite name "east" t ∈
          (create_era5_input unitOps [("qt", ())] 1
            [(50 : ℚ)] [0, 100] ⟨(), (), ()⟩ 0 1).events ∧
        Step.lbcWrite name "south" t ∈
          (create_era5_input unitOps [("qt", ())] 1
            [(50 : ℚ)] [0, 100] ⟨(), (), ()⟩ 0 1).events ∧
        Step.lbcWrite name "north" t ∈
          (create_era5_input unitOps [("qt", ())] 1
            [(50 : ℚ)] [0, 100] ⟨(), (), ()⟩ 0 1).events)) :=
  c2_momentum_skipped_scalars_complete unitOps [("qt", ())] 1
    [(50 : ℚ)] [0, 100] ⟨(), (), ()⟩ 0 1 (by decide)

/-- Claim C10: the scalar loop excludes u, v and w unconditionally (for any
field set, no scalar-section event is about them), and when momentum is
skipped because a component is missing, no initial file and no LBC record is
ever produced for u, v or w — including for momentum components that are
present in the input. -/
theorem c10_momentum_components_orphaned {S F P : Type} [Inhabited S]
    (ops : ExtOps S F P) (fields_era : List (String × S)) (nt : ℕ)
    (z zh : List ℚ) (ip_facs : IpFactors P) (sigma_h dx : ℚ)
    (hmiss : (["u", "v", "w"] : List String).any
      (fun f => !((fields_era.map Prod.fst).contains f)) = true) :
    (∀ (fields2 : List (String × S)) (sigma_n : ℤ),
      ∀ s ∈ scalar_events ops fields2 nt z ip_facs sigma_n,
        Step.varName s ≠ "u" ∧ Step.varName s ≠ "v" ∧ Step.varName s ≠ "w") ∧
    (∀ name, name = "u" ∨ name = "v" ∨ name = "w" →
      (∀ k, Step.saveInit name k ∉
        (create_era5_input ops fields_era nt z zh ip_facs sigma_h dx).events) ∧
      (∀ side t, Step.lbcWrite name side t ∉
        (create_era5_input ops fields_era nt z zh ip_facs sigma_h dx).events)) := by
  rw [create_era5_input_of_missing ops fields_era nt z zh ip_facs sigma_h dx hmiss]
  refine ⟨fun fields2 sigma_n => scalar_events_varName ops fields2 nt z ip_facs sigma_n, ?_⟩
  intro name hname
  constructor
  · intro k hk
    have := scalar_events_varName ops fields_era nt z ip_facs
      (sigma_n_of sigma_h dx) _ hk
    rcases hname with rfl | rfl | rfl <;> simp [Step.varName] at this
  · intro side t hk
    have := scalar_events_varName ops fields_era nt z ip_facs
      (sigma_n_of sigma_h dx) _ hk
    rcases hname with rfl | rfl | rfl <;> simp [Step.varName] at this

/-- Witness for C10 at a concrete input (u present, v and w missing). -/
theorem c10_momentum_components_orphaned_witness :
    (∀ (fields2 : List (String × Unit)) (sigma_n : ℤ),
      ∀ s ∈ scalar_events unitOps fields2 1 [(50 : ℚ)] ⟨(), (), ()⟩ sigma_n,
        Step.varName s ≠ "u" ∧ Step.varName s ≠ "v" ∧ Step.varName s ≠ "w") ∧
    (∀ name, name = "u" ∨ name = "v" ∨ name = "w" →
      (∀ k, Step.saveInit name k ∉
        (create_era5_input unitOps [("u", ()), ("qt", ())] 1
          [(50 : ℚ)] [0, 100] ⟨(), (), ()⟩ 0 1).events) ∧
      (∀ side t, Step.lbcWrite name side t ∉
        (create_era5_input unitOps [("u", ()), ("qt", ())] 1
          [(50 : ℚ)] [0, 100] ⟨(), (), ()⟩ 0 1).events)) :=
  c10_momentum_components_orphaned unitOps [("u", ()), ("qt", ())] 1
    [(50 : ℚ)] [0, 100] ⟨(), (), ()⟩ 0 1 (by decide)

/-- The reconstructed w satisfies the density-weighted continuity relation it
was solved from, level by level. -/
lemma rhoh_calc_w_succ (u v : ℕ → ℕ → ℕ → ℚ) (rho rhoh dz : ℕ → ℚ)
    (dxi dyi : ℚ) (hrhoh : ∀ k, rhoh k ≠ 0) (k j i : ℕ) :
    rhoh (k + 1) * calc_w_from_uv u v rho rhoh dz dxi dyi (k + 1) j i =
      rhoh k * calc_w_from_uv u v rho rhoh dz dxi dyi k j i
        - rho k * dz k * div_h u v dxi dyi k j i := by
  rw [calc_w_from_uv]
  field_simp
  exact mul_div_cancel_left₀ _ (hrhoh (k + 1))

/-- After reconstruction the continuity residual vanishes at every grid
point. -/
lemma div_res_calc_w_from_uv (u v : ℕ → ℕ → ℕ → ℚ) (rho rhoh dz dzi : ℕ → ℚ)
    (dxi dyi : ℚ) (hrhoh : ∀ k, rhoh k ≠ 0) (hdz : ∀ k, dz k ≠ 0)
    (hdzi : ∀ k, dzi k = (dz k)⁻¹) (k j i : ℕ) :
    div_res u v (calc_w_from_uv u v rho rhoh dz dxi dyi) rho rhoh dzi dxi dyi
      k j i = 0 := by
  rw [div_res, rhoh_calc_w_succ u v rho rhoh dz dxi dyi hrhoh k j i, hdzi k]
  have h := hdz k
  field_simp
  ring

/-- The maximum of a list of zeros (starting from zero) is zero. -/
lemma foldl_max_zero (l : List ℚ) (h : ∀ x ∈ l, x = 0) : l.foldl max 0 = 0 := by
  induction l with
  | nil => rfl
  | cons a l ih =>
      rw [List.foldl_cons, h a (by simp), max_self]
      exact ih (fun x hx => h x (by simp [hx]))

/-- Claim C8: after the w reconstruction of the momentum pipeline the wind
field is divergence-free at every interior grid point: in exact arithmetic
the maximum absolute residual returned by the diagnostic is exactly 0, in
particular below the 1e-10 tolerance.  (Holds for every input, so in
particular for inputs whose analytic wind field is divergence-free.) -/
theorem c8_divergence_free_after_reconstruction (u v : ℕ → ℕ → ℕ → ℚ)
    (rho rhoh dz dzi : ℕ → ℚ) (dxi dyi : ℚ)
    (istart iend jstart jend ktot : ℕ)
    (hrhoh : ∀ k, rhoh k ≠ 0) (hdz : ∀ k, dz k ≠ 0)
    (hdzi : ∀ k, dzi k = (dz k)⁻¹) :
    check_divergence u v (calc_w_from_uv u v rho rhoh dz dxi dyi) rho rhoh dzi
        dxi dyi istart iend jstart jend ktot = 0 ∧
    check_divergence u v (calc_w_from_uv u v rho rhoh dz dxi dyi) rho rhoh dzi
        dxi dyi istart iend jstart jend ktot < 1 / 10000000000 := by
  have h0 : check_divergence u v (calc_w_from_uv u v rho rhoh dz dxi dyi) rho rhoh dzi
      dxi dyi istart iend jstart jend ktot = 0 := by
    rw [check_divergence]
    apply foldl_max_zero
    intro x hx
    simp only [List.mem_flatMap, List.mem_map, List.mem_range] at hx
    obtain ⟨k, -, j, -, i, -, rfl⟩ := hx
    rw [div_res_calc_w_from_uv u v rho rhoh dz dzi dxi dyi hrhoh hdz hdzi, abs_zero]
  exact ⟨h0, by rw [h0]; norm_num⟩

/-- Witness for C8 at a concrete input: uniform u = 1, v = 0, unit density
and spacing, a 2-level 2x2 interior. -/
theorem c8_divergence_free_after_reconstruction_witness :
    check_divergence (fun _ _ _ => 1) (fun _ _ _ => 0)
        (calc_w_from_uv (fun _ _ _ => 1) (fun _ _ _ => 0)
          (fun _ => 1) (fun _ => 1) (fun _ => 1) 1 1)
        (fun _ => 1) (fun _ => 1) (fun _ => 1) 1 1 1 3 1 3 2 = 0 ∧
    check_divergence (fun _ _ _ => 1) (fun _ _ _ => 0)
        (calc_w_from_uv (fun _ _ _ => 1) (fun _ _ _ => 0)
          (fun _ => 1) (fun _ => 1) (fun _ => 1) 1 1)
        (fun _ => 1) (fun _ => 1) (fun _ => 1) 1 1 1 3 1 3 2 < 1 / 10000000000 :=
  c8_divergence_free_after_reconstruction (fun _ _ _ => 1) (fun _ _ _ => 0)
    (fun _ => 1) (fun _ => 1) (fun _ => 1) (fun _ => 1) 1 1 1 3 1 3 2
    (fun _ => one_ne_zero) (fun _ => one_ne_zero) (fun _ => by norm_num)

/-- A list is the range-indexed map of its `getD` accesses. -/
lemma list_eq_range_map_getD {α : Type} (l : List α) (d : α) :
    l = (List.range l.length).map (fun k => l.getD k d) := by
  apply List.ext_getElem
  · simp
  · intro n h1 h2
    simp only [List.getElem_map, List.getElem_range]
    rw [List.getD_eq_getElem _ _ h1]

/-- The slice `xs[a:-a]` (with `a ≥ 1`) picks out elements `a + j` for
`j < length - 2a`. -/
lemma sliceTrim_eq_map {α : Type} (a : ℕ) (ha : 1 ≤ a) (xs : List α) (d : α) :
    sliceTrim a xs =
      (List.range (xs.length - 2 * a)).map (fun j => xs.getD (a + j) d) := by
  rw [sliceTrim, if_neg (by omega : ¬a = 0)]
  apply List.ext_getElem
  · simp
    omega
  · intro n h1 h2
    simp only [List.length_map, List.length_range] at h2
    simp only [List.getElem_take, List.getElem_drop, List.getElem_map,
      List.getElem_range]
    rw [List.getD_eq_getElem _ _ (by omega : a + n < xs.length)]

/-- Flattening commutes with `flatMap` one level down. -/
lemma flatten_flatMap {α β : Type} (l : List α) (g : α → List (List β)) :
    (l.flatMap g).flatten = l.flatMap (fun x => (g x).flatten) := by
  induction l with
  | nil => rfl
  | cons x l ih => simp only [List.flatMap_cons, List.flatten_append, ih]

/-- The data written by `save_3d_field` is the per-plane double slice,
flattened in C order. -/
lemma save_3d_field_data_eq_flatMap (fld : List (List (List ℚ)))
    (name name_suffix : String) (n_pad : ℕ) (output_dir : String) :
    (save_3d_field fld name name_suffix n_pad output_dir).data =
      fld.flatMap (fun plane =>
        (sliceTrim n_pad plane).flatMap (fun row => sliceTrim n_pad row)) := by
  show ((fld.map _).flatten).flatten = _
  rw [← List.flatMap_def, flatten_flatMap]
  simp only [← List.flatMap_def]

/-- Double slice of one horizontal plane, as indexed accesses. -/
lemma plane_slice_eq {jt it a : ℕ} (ha : 1 ≤ a) (plane : List (List ℚ))
    (hpl : plane.length = jt) (hrow : ∀ row ∈ plane, row.length = it) :
    (sliceTrim a plane).flatMap (fun row => sliceTrim a row) =
      (List.range (jt - 2 * a)).flatMap (fun j =>
        (List.range (it - 2 * a)).map (fun i =>
          (plane.getD (a + j) []).getD (a + i) 0)) := by
  rw [sliceTrim_eq_map a ha plane [], List.flatMap_map, hpl]
  rw [List.flatMap_def, List.flatMap_def]
  apply congrArg List.flatten
  apply List.map_congr_left
  intro j hj
  have hjr : j < jt - 2 * a := List.mem_range.mp hj
  have hjlt : a + j < plane.length := by
    rw [hpl]
    omega
  have hmem : plane.getD (a + j) [] ∈ plane := by
    rw [List.getD_eq_getElem _ _ hjlt]
    exact List.getElem_mem hjlt
  rw [sliceTrim_eq_map a ha (plane.getD (a + j) []) 0, hrow _ hmem]

/-- Claim C7: for `n_pad ≥ 1` the file written by `save_3d_field` is named
`name.0000000` (or `name_suffix.0000000`) and contains exactly the input with
`n_pad` cells removed from each horizontal side and all levels kept, in
level-major then row-major order; every value in it comes from the interior
(the halo never appears). -/
theorem c7_save_3d_field_interior (fld : List (List (List ℚ)))
    (name name_suffix output_dir : String) (n_pad kt jt it : ℕ)
    (hpad : 1 ≤ n_pad) (hk : fld.length = kt)
    (hj : ∀ plane ∈ fld, plane.length = jt)
    (hi : ∀ plane ∈ fld, ∀ row ∈ plane, row.length = it) :
    (save_3d_field fld name name_suffix n_pad output_dir).fname =
      (if name_suffix = "" then output_dir ++ "/" ++ name ++ ".0000000"
       else output_dir ++ "/" ++ name ++ "_" ++ name_suffix ++ ".0000000") ∧
    (save_3d_field fld name name_suffix n_pad output_dir).data =
      (List.range kt).flatMap (fun k =>
        (List.range (jt - 2 * n_pad)).flatMap (fun j =>
          (List.range (it - 2 * n_pad)).map (fun i =>
            ((fld.getD k []).getD (n_pad + j) []).getD (n_pad + i) 0))) ∧
    (∀ x ∈ (save_3d_field fld name name_suffix n_pad output_dir).data,
      ∃ k j i, k < kt ∧ n_pad ≤ j ∧ j + n_pad < jt ∧ n_pad ≤ i ∧ i + n_pad < it ∧
        x = ((fld.getD k []).getD j []).getD i 0) := by
  have hmain : (save_3d_field fld name name_suffix n_pad output_dir).data =
      (List.range kt).flatMap (fun k =>
        (List.range (jt - 2 * n_pad)).flatMap (fun j =>
          (List.range (it - 2 * n_pad)).map (fun i =>
            ((fld.getD k []).getD (n_pad + j) []).getD (n_pad + i) 0))) := by
    rw [save_3d_field_data_eq_flatMap]
    conv_lhs => rw [list_eq_range_map_getD fld []]
    rw [List.flatMap_map, hk]
    rw [List.flatMap_def, List.flatMap_def]
    apply congrArg List.flatten
    apply List.map_congr_left
    intro k hkmem
    have hklt : k < fld.length := by
      rw [hk]
      exact List.mem_range.mp hkmem
    have hmem : fld.getD k [] ∈ fld := by
      rw [List.getD_eq_getElem _ _ hklt]
      exact List.getElem_mem hklt
    exact plane_slice_eq hpad (fld.getD k []) (hj _ hmem) (hi _ hmem)
  refine ⟨rfl, hmain, ?_⟩
  intro x hx
  rw [hmain] at hx
  simp only [List.mem_flatMap, List.mem_map, List.mem_range] at hx
  obtain ⟨k, hkk, j, hjj, i, hii, rfl⟩ := hx
  exact ⟨k, n_pad + j, n_pad + i, hkk, by omega, by omega, by omega, by omega, rfl⟩

/-- Witness for C7 at a concrete input: one level, 3x3 plane, halo width 1,
leaving the single centre value. -/
theorem c7_save_3d_field_interior_witness :
    (save_3d_field [[[1, 2, 3], [4, 5, 6], [7, 8, 9]]] "qt" "" 1 "out").fname =
      (if ("" : String) = "" then "out" ++ "/" ++ "qt" ++ ".0000000"
       else "out" ++ "/" ++ "qt" ++ "_" ++ "" ++ ".0000000") ∧
    (save_3d_field [[[1, 2, 3], [4, 5, 6], [7, 8, 9]]] "qt" "" 1 "out").data =
      (List.range 1).flatMap (fun k =>
        (List.range (3 - 2 * 1)).flatMap (fun j =>
          (List.range (3 - 2 * 1)).map (fun i =>
            ((([[[1, 2, 3], [4, 5, 6], [7, 8, 9]]] : List (List (List ℚ))).getD k []).getD
              (1 + j) []).getD (1 + i) 0))) ∧
    (∀ x ∈ (save_3d_field [[[1, 2, 3], [4, 5, 6], [7, 8, 9]]] "qt" "" 1 "out").data,
      ∃ k j i, k < 1 ∧ 1 ≤ j ∧ j + 1 < 3 ∧ 1 ≤ i ∧ i + 1 < 3 ∧
        x = ((([[[1, 2, 3], [4, 5, 6], [7, 8, 9]]] : List (List (List ℚ))).getD k []).getD
          j []).getD i 0) :=
  c7_save_3d_field_interior [[[1, 2, 3], [4, 5, 6], [7, 8, 9]]] "qt" "" "out"
    1 1 3 3 (by norm_num) rfl (by simp) (by intro p hp r hr; simp at hp; subst hp; fin_cases hr <;> rfl)

end Microhhpy
